import Mathlib

/-!
# ff-build: the gulp orchestration of `index.js`

A shallow embedding of `ffBuild`: the vendor configuration, the file pipelines it
declares (source globs, stages, destination), the three tasks it registers, and the
effects of each task body. Glob strings are kept exactly as they are written in the
source; their meaning is given by a matcher for the two wildcard forms the source
uses (`*` inside a path component and `**` as a whole component), with the defaults
`gulp.src` gets when no options are passed.
-/

namespace FFBuild

/-! ## Configuration -/

/-- The `vendor` object: each of `js` and `css` is a string or absent (`undefined`). -/
structure Vendor where
  js : Option String
  css : Option String
deriving DecidableEq, Repr

/-- The argument of `ffBuild`: an object whose `vendor` property may be absent. -/
structure Options where
  vendor : Option Vendor
deriving DecidableEq, Repr

/-- The empty object literal of the two destructuring defaults in
`function ffBuild({ vendor = {} } = {})`. -/
def emptyVendor : Vendor := ⟨none, none⟩

/-- The parameter destructuring of `ffBuild`: a missing argument is `{}`, and a missing
`vendor` property is `{}`. -/
def destructure : Option Options → Vendor
  | none => emptyVendor
  | some o =>
    match o.vendor with
    | none => emptyVendor
    | some v => v

/-- The result of `Object.assign(target, source)` on the two properties: the properties
present in `source` overwrite those of `target`; the (mutated) target is returned. -/
def objectAssign (target source : Vendor) : Vendor :=
  ⟨(match source.js with
    | some s => some s
    | none => target.js),
   (match source.css with
    | some s => some s
    | none => target.css)⟩

/-- The object literal that is the first argument of `Object.assign` in `ffBuild`. -/
def defaults : Vendor := ⟨some "plugins", some "plugins"⟩

/-- A substitution in a template literal: a string is inserted as it is, `undefined`
prints as the text "undefined". -/
def interpolate : Option String → String
  | some s => s
  | none => "undefined"

/-! ## Cache keys -/

/-- The shape of the `CACHE_KEYS` object. -/
structure CacheKeys where
  buildJS : String
  minJS : String
  buildLess : String
  buildSass : String
  buildCSS : String
  formatCSS : String

/-- Cache keys for gulp-cached. -/
def CACHE_KEYS : CacheKeys :=
  ⟨"build:js", "min:js", "build:less", "build:sass", "build:css", "format:css"⟩

/-- The values of `CACHE_KEYS`, in the order of its properties. -/
def cacheKeyValues : List String :=
  [CACHE_KEYS.buildJS, CACHE_KEYS.minJS, CACHE_KEYS.buildLess, CACHE_KEYS.buildSass,
   CACHE_KEYS.buildCSS, CACHE_KEYS.formatCSS]

/-! ## Pipelines -/

/-- One `.pipe(...)` stage of a pipeline. Only the arguments that name a cache, a
directory or a report title are kept; transform options are not. -/
inductive Stage where
  | plumber
  | cache (key : String)
  | remember (key : String)
  | babel
  | autoprefixer
  | less
  | sass
  | sassInheritance (dir : String)
  | prettier
  | size (title : String)
  | buffer
  | uglify
  | cleanCSS
  | imageMin
  | clean
  | dest (dir : String)
deriving DecidableEq, Repr

/-- A pipeline: the globs handed to `gulp.src` and the stages piped after it. -/
structure Stream where
  src : List String
  pipes : List Stage
deriving DecidableEq, Repr

/-- The keys a pipeline passes to `cache(...)`. -/
def Stream.cacheKeys (s : Stream) : List String :=
  s.pipes.filterMap fun st =>
    match st with
    | Stage.cache k => some k
    | _ => none

/-- The keys a pipeline passes to `remember(...)`. -/
def Stream.rememberKeys (s : Stream) : List String :=
  s.pipes.filterMap fun st =>
    match st with
    | Stage.remember k => some k
    | _ => none

/-- The directories a pipeline passes to `gulp.dest(...)`. -/
def Stream.dests (s : Stream) : List String :=
  s.pipes.filterMap fun st =>
    match st with
    | Stage.dest d => some d
    | _ => none

/-- Build JS files by transpiling with babel. -/
def buildJS (vendor : Vendor) : Stream :=
  ⟨["./assets/javascripts/**/*.js",
    "!./assets/javascripts/" ++ interpolate vendor.js ++ "/**/*"],
   [Stage.plumber, Stage.cache CACHE_KEYS.buildJS, Stage.babel,
    Stage.remember CACHE_KEYS.buildJS, Stage.dest "public/javascripts"]⟩

/-- Build CSS files by autoprefixing. -/
def buildCSS (vendor : Vendor) : Stream :=
  ⟨["./assets/stylesheets/**/*.css",
    "!./assets/stylesheets/**/*.less",
    "!./assets/stylesheets/**/*.scss",
    "!./assets/stylesheets/" ++ interpolate vendor.css ++ "/**/*"],
   [Stage.plumber, Stage.cache CACHE_KEYS.buildCSS, Stage.autoprefixer,
    Stage.remember CACHE_KEYS.buildCSS, Stage.dest "./public/stylesheets"]⟩

/-- Build Less files. -/
def buildLess (vendor : Vendor) : Stream :=
  ⟨["./assets/stylesheets/**/*.less",
    "!./assets/stylesheets/" ++ interpolate vendor.css ++ "/**/*"],
   [Stage.plumber, Stage.cache CACHE_KEYS.buildLess, Stage.less, Stage.autoprefixer,
    Stage.remember CACHE_KEYS.buildLess, Stage.dest "./public/stylesheets"]⟩

/-- Build Sass files. -/
def buildSass (vendor : Vendor) : Stream :=
  ⟨["./assets/stylesheets/**/*.scss",
    "!./assets/stylesheets/" ++ interpolate vendor.css ++ "/**/*"],
   [Stage.plumber, Stage.cache CACHE_KEYS.buildSass,
    Stage.sassInheritance "./assets/stylesheets/", Stage.sass, Stage.autoprefixer,
    Stage.remember CACHE_KEYS.buildSass, Stage.dest "./public/stylesheets"]⟩

/-- Format stylesheets using prettier. -/
def formatCSS (vendor : Vendor) : Stream :=
  ⟨["./assets/stylesheets/**/*",
    "!./assets/stylesheets/**/*.less",
    "!./assets/stylesheets/**/*.scss",
    "!./assets/stylesheets/" ++ interpolate vendor.css ++ "/**/*"],
   [Stage.plumber, Stage.prettier, Stage.dest "./dist"]⟩

/-- Minify JS assets using uglify. The vendor object is not read here. -/
def minifyJS (_vendor : Vendor) : Stream :=
  ⟨["public/javascripts/**/*.js", "!./public/javascripts/plugins/**/*"],
   [Stage.plumber, Stage.size "JS before minification", Stage.buffer, Stage.uglify,
    Stage.size "JS after minification", Stage.dest "public/javascripts"]⟩

/-- Minify CSS files using clean-css. The vendor object is not read here. -/
def minifyCSS (_vendor : Vendor) : Stream :=
  ⟨["./public/stylesheets/**/*.css"],
   [Stage.plumber, Stage.size "CSS before minification", Stage.cleanCSS,
    Stage.size "CSS after minification", Stage.dest "./public/stylesheets"]⟩

/-- Minify image assets using imagemin. -/
def minifyImages (_vendor : Vendor) : Stream :=
  ⟨["./public/images/**/*"],
   [Stage.plumber, Stage.imageMin, Stage.dest "./public/images"]⟩

/-- Copy vendor JS files to public. -/
def copyVendorJS (vendor : Vendor) : Stream :=
  ⟨["./assets/javascripts/" ++ interpolate vendor.js ++ "/**/*"],
   [Stage.dest ("./public/javascripts/" ++ interpolate vendor.js)]⟩

/-- Copy vendor CSS files to public. -/
def copyVendorCSS (vendor : Vendor) : Stream :=
  ⟨["./assets/stylesheets/" ++ interpolate vendor.css ++ "/**/*"],
   [Stage.dest ("./public/stylesheets/" ++ interpolate vendor.css)]⟩

/-- Copy over image assets. -/
def copyImages (_vendor : Vendor) : Stream :=
  ⟨["./assets/images/**"], [Stage.dest "./public/images"]⟩

/-- Copy over font assets. -/
def copyFonts (_vendor : Vendor) : Stream :=
  ⟨["./assets/fonts/**"], [Stage.dest "./public/fonts"]⟩

/-- The stream of the `clean` task: `gulp.src('./public', { read: false }).pipe(clean())`. -/
def cleanPublic (_vendor : Vendor) : Stream :=
  ⟨["./public"], [Stage.clean]⟩

/-- The names of the functions of `ffBuild` that create one pipeline each. -/
inductive Pipeline where
  | buildJS | buildCSS | buildLess | buildSass
  | formatCSS
  | minifyJS | minifyCSS | minifyImages
  | copyVendorJS | copyVendorCSS | copyImages | copyFonts
  | cleanPublic
deriving DecidableEq, Repr, Fintype

/-- The pipeline a function name stands for, in the closure of a given `vendor`. -/
def Pipeline.stream (vendor : Vendor) : Pipeline → Stream
  | .buildJS => FFBuild.buildJS vendor
  | .buildCSS => FFBuild.buildCSS vendor
  | .buildLess => FFBuild.buildLess vendor
  | .buildSass => FFBuild.buildSass vendor
  | .formatCSS => FFBuild.formatCSS vendor
  | .minifyJS => FFBuild.minifyJS vendor
  | .minifyCSS => FFBuild.minifyCSS vendor
  | .minifyImages => FFBuild.minifyImages vendor
  | .copyVendorJS => FFBuild.copyVendorJS vendor
  | .copyVendorCSS => FFBuild.copyVendorCSS vendor
  | .copyImages => FFBuild.copyImages vendor
  | .copyFonts => FFBuild.copyFonts vendor
  | .cleanPublic => FFBuild.cleanPublic vendor

/-! ## Paths and glob patterns

`gulp.src` is called without options, so the matcher has the defaults: a `*` in a path
component matches any run of characters, a component `**` matches any number of whole
components, and neither of them matches a component that begins with a dot unless the
pattern component itself begins with a dot. Globs are resolved against the working
directory before matching, which removes empty and `.` components. -/

/-- The components of a path between the `/` separators. -/
def splitSlash : List Char → List (List Char)
  | [] => [[]]
  | c :: cs =>
    if c = '/' then [] :: splitSlash cs
    else
      match splitSlash cs with
      | s :: ss => (c :: s) :: ss
      | [] => [[c]]

/-- One step of path resolution: empty and `.` components vanish, `..` removes the
component before it. -/
def pushSegment (acc : List (List Char)) (s : List Char) : List (List Char) :=
  if s = [] ∨ s = ['.'] then acc
  else if s = ['.', '.'] then acc.dropLast
  else acc ++ [s]

/-- The components of a path or glob written relative to the working directory, after
resolution. -/
def segments (p : List Char) : List (List Char) :=
  (splitSlash p).foldl pushSegment []

/-- The components of a path given as a string. -/
def pathOf (p : String) : List (List Char) := segments p.data

/-- Whether `f` holds of some suffix of the text: the choices of a `*`. -/
def anySuffix (f : List Char → Bool) : List Char → Bool
  | [] => f []
  | c :: cs => f (c :: cs) || anySuffix f cs

/-- Matching of one component against a pattern component in which `*` is the only
wildcard. -/
def wild : List Char → List Char → Bool
  | [], s => s.isEmpty
  | c :: p, s =>
    if c = '*' then anySuffix (wild p) s
    else
      match s with
      | d :: s1 => c == d && wild p s1
      | [] => false

/-- A component that begins with a dot. -/
def hidden (s : List Char) : Bool := s.head? == some '.'

/-- Matching of one component: the wildcard match, where a component that begins with a
dot needs a pattern that begins with a dot, and a pattern that begins with `*` needs a
non-empty component. -/
def segMatch (pat s : List Char) : Bool :=
  wild pat s && (!hidden s || hidden pat) && (!(pat.head? == some '*') || !s.isEmpty)

/-- The choices of a `**` component: it takes any number of leading components, none of
which begins with a dot. -/
def starDirs (f : List (List Char) → Bool) : List (List Char) → Bool
  | [] => f []
  | s :: rest => f (s :: rest) || (!hidden s && starDirs f rest)

/-- Matching of a resolved path against the components of a glob. -/
def globMatch : List (List Char) → List (List Char) → Bool
  | [], path => path.isEmpty
  | p :: ps, path =>
    if p = ['*', '*'] then starDirs (globMatch ps) path
    else
      match path with
      | s :: rest => segMatch p s && globMatch ps rest
      | [] => false

/-- A glob that begins with `!` is negated. -/
def isNegative (g : String) : Bool := g.data.head? == some '!'

/-- Whether a path matches a positive glob. -/
def matchesGlob (g : String) (path : List (List Char)) : Bool :=
  globMatch (segments g.data) path

/-- Whether a path matches the pattern of a negated glob, the text after its `!`. -/
def matchesNegated (g : String) (path : List (List Char)) : Bool :=
  globMatch (segments (g.data.drop 1)) path

/-- The selection rule of `gulp.src` for a list of globs in which the negated globs come
after the positive ones: a path is selected iff it matches some positive glob and no
negated glob. -/
def selected (globs : List String) (path : List (List Char)) : Bool :=
  globs.any (fun g => !isNegative g && matchesGlob g path) &&
  globs.all (fun g => !isNegative g || !matchesNegated g path)

/-- A path below a directory: the components of the directory followed by `rest`. -/
def below (dir : String) (rest : List (List Char)) : List (List Char) :=
  segments dir.data ++ rest

/-- A directory name with no separator and no glob metacharacter, other than the empty
name, `.` and `..`. -/
def plainName (j : String) : Bool :=
  j.data.all (fun c => !("/*?[]()!+@|\\\x7b\x7d".data.contains c)) &&
  !(j.data = []) && !(j.data = ['.']) && !(j.data = ['.', '.'])

/-- A component that `*` and `**` can match: non-empty and not beginning with a dot. -/
def visible (s : List Char) : Bool := !s.isEmpty && !hidden s

/-! ## Merged streams, tasks and their effects

`merge` is `concat` of event-stream: the merged stream carries the files of its member
streams and emits `end` when every member has ended. A merged stream is represented by
the list of the pipelines merged into it, so a merge of merges is the list of all the
pipelines below it. Calling a function that returns a stream starts its pipelines, in
the order of the calls. -/

/-- The stream `merge` makes of the given streams: its members are all their members. -/
def merge (streams : List (List Pipeline)) : List Pipeline :=
  streams.foldr (fun s acc => s ++ acc) []

/-- Merge the four build pipelines. -/
def build : List Pipeline :=
  merge [[Pipeline.buildJS], [Pipeline.buildCSS], [Pipeline.buildLess], [Pipeline.buildSass]]

/-- Format stylesheets and JS. -/
def format : List Pipeline :=
  merge [[Pipeline.formatCSS]]

/-- Merge JS, CSS and image minification. -/
def minify : List Pipeline :=
  merge [[Pipeline.minifyImages], [Pipeline.minifyJS], [Pipeline.minifyCSS]]

/-- Copy images, fonts and vendor JS and CSS to the public directory. -/
def copy : List Pipeline :=
  merge [[Pipeline.copyVendorJS], [Pipeline.copyVendorCSS], [Pipeline.copyImages],
    [Pipeline.copyFonts]]

/-- What a callback (a watch handler or an `end` listener) does when it is called. -/
inductive Action where
  | log (msg : String)
  | start (p : Pipeline)
deriving DecidableEq, Repr

/-- One effect of a task body, in program order. -/
inductive Effect where
  | log (msg : String)
  | start (p : Pipeline)
  | watch (globs : List String) (handler : List Action)
  | onEnd (members : List Pipeline) (listener : List Action)
deriving DecidableEq, Repr

/-- The effects of calling a function that returns a stream. -/
def call (stream : List Pipeline) : List Effect := stream.map Effect.start

/-- The effects of calling a function that returns a stream, inside a callback. -/
def callAction (stream : List Pipeline) : List Action := stream.map Action.start

/-- Whether an effect is a `gulp.watch` registration. -/
def Effect.isWatch : Effect → Bool
  | .watch _ _ => true
  | _ => false

/-- The pipeline an effect starts, if it starts one. -/
def Effect.started : Effect → Option Pipeline
  | .start p => some p
  | _ => none

/-- The pipelines a callback starts. -/
def startedBy (handler : List Action) : List Pipeline :=
  handler.filterMap fun a =>
    match a with
    | Action.start p => some p
    | _ => none

/-- The globs of a `gulp.watch` registration and the pipelines its handler starts. -/
def Effect.watcher : Effect → Option (List String × List Pipeline)
  | .watch globs handler => some (globs, startedBy handler)
  | _ => none

/-- A call of `gulp.task(name, deps, fn)`; `body` lists the effects of running `fn`. -/
structure Task where
  name : String
  deps : List String
  body : List Effect
deriving DecidableEq, Repr

/-- The task `clean`: clean the public directory. -/
def cleanTask : Task :=
  ⟨"clean", [], [Effect.log "Cleaning project...", Effect.start Pipeline.cleanPublic]⟩

/-- The task `build`: `merge(copy(), build()).on('end', minify)`. -/
def buildTask : Task :=
  ⟨"build", ["clean"],
   [Effect.log "Building for production..."] ++ call copy ++ call build ++
   [Effect.onEnd (merge [copy, build]) (callAction minify)]⟩

/-- The task `default`: three `gulp.watch` calls, then `merge(copy(), build())`. -/
def defaultTask : Task :=
  ⟨"default", ["clean"],
   [Effect.watch ["./assets/javascripts/**/*.js"]
      ([Action.log "JS file changed. Building..."] ++ callAction [Pipeline.buildJS]),
    Effect.watch
      ["./assets/stylesheets/**/*.less",
       "./assets/stylesheets/**/*.css",
       "./assets/stylesheets/**/*.scss"]
      ([Action.log "Stylesheet file changed. Building..."] ++
        callAction (merge [[Pipeline.buildCSS], [Pipeline.buildLess], [Pipeline.buildSass]])),
    Effect.watch ["./assets/images/**"]
      ([Action.log "Image file changed. Building..."] ++ callAction [Pipeline.copyImages])] ++
   call copy ++ call build⟩

/-- What a call of `ffBuild` leaves behind: the `vendor` binding its pipelines close
over, and the tasks it has registered with gulp, in order. -/
structure Gulp where
  vendor : Vendor
  tasks : List Task
deriving DecidableEq, Repr

/-- The function `ffBuild`. The object computed by `Object.assign` is not bound to
anything: the pipelines read the `vendor` binding of the parameter. -/
def ffBuild (arg : Option Options) : Gulp :=
  let vendor := destructure arg
  let _merged := objectAssign defaults vendor
  ⟨vendor, [cleanTask, buildTask, defaultTask]⟩

/-- The task registered under a name. -/
def Gulp.task (g : Gulp) (name : String) : Option Task :=
  g.tasks.find? fun t => t.name == name

/-- The pipeline that a function name denotes after a call of `ffBuild`. -/
def Gulp.stream (g : Gulp) (p : Pipeline) : Stream := p.stream g.vendor

/-! ## Running a task body

The run of a task is a trace of events. The body's effects come first, in program
order; afterwards pipelines end in an order the program does not control, and a
listener registered on the `end` of a merged stream is called when the last of the
members of that stream has ended. -/

/-- An observable event of a run. -/
inductive Event where
  | log (msg : String)
  | start (p : Pipeline)
  | ended (p : Pipeline)
  | watching (globs : List String)
deriving DecidableEq, Repr

/-- A listener on the `end` event of a merged stream. -/
structure Listener where
  members : List Pipeline
  actions : List Action
deriving DecidableEq, Repr

/-- The state of a run: the trace so far and the listeners not yet called. -/
structure State where
  trace : List Event
  listeners : List Listener
deriving DecidableEq, Repr

/-- The event of an action of a callback. -/
def Action.event : Action → Event
  | .log msg => Event.log msg
  | .start p => Event.start p

/-- The effect of one statement of a task body on the run. -/
def perform (s : State) : Effect → State
  | .log msg => ⟨s.trace ++ [Event.log msg], s.listeners⟩
  | .start p => ⟨s.trace ++ [Event.start p], s.listeners⟩
  | .watch globs _ => ⟨s.trace ++ [Event.watching globs], s.listeners⟩
  | .onEnd members listener => ⟨s.trace, s.listeners ++ [⟨members, listener⟩]⟩

/-- The state after the body of a task has run. -/
def exec (body : List Effect) : State := body.foldl perform ⟨[], []⟩

/-- Whether every member of a merged stream has ended in the trace. -/
def allEnded (trace : List Event) (members : List Pipeline) : Bool :=
  members.all fun q => trace.contains (Event.ended q)

/-- The end of pipeline `p`: possible once, after `p` has started. The listeners whose
merged stream is thereby complete are called, and are removed. -/
def deliverEnd (s : State) (p : Pipeline) : State :=
  if s.trace.contains (Event.start p) && !s.trace.contains (Event.ended p) then
    let t1 := s.trace ++ [Event.ended p]
    let due := s.listeners.filter fun l => allEnded t1 l.members
    let waiting := s.listeners.filter fun l => !allEnded t1 l.members
    ⟨t1 ++ (due.map fun l => l.actions.map Action.event).foldr (fun a acc => a ++ acc) [],
     waiting⟩
  else s

/-- The run of a task body followed by the ends of pipelines in the given order. -/
def run (body : List Effect) (ends : List Pipeline) : State :=
  ends.foldl deliverEnd (exec body)

/-- The directory a pipeline writes to, resolved: the argument of its `gulp.dest`. -/
def Stream.destination (s : Stream) : List (List Char) :=
  match s.dests with
  | d :: _ => segments d.data
  | [] => []

/-- The listener the `build` task registers on the merged stream of `copy()` and
`build()`. -/
def buildListener : Listener := ⟨merge [copy, build], callAction minify⟩

/-- The invariant of the runs of the `build` task: either the listener is still waiting,
no minify pipeline has started and some member has not ended, or the listener has been
called after a part of the trace in which every member had ended. -/
def BuildInv (s : State) : Prop :=
  (s.listeners = [buildListener] ∧ (∀ m ∈ minify, Event.start m ∉ s.trace) ∧
    allEnded s.trace buildListener.members = false) ∨
  (s.listeners = [] ∧ ∃ pre post, s.trace = pre ++ post ∧
    allEnded pre buildListener.members = true ∧ (∀ m ∈ minify, Event.start m ∉ pre) ∧
    ∀ m ∈ minify, Event.start m ∈ s.trace)

/-! ## Facts about path resolution -/

theorem splitSlash_ne_nil (a : List Char) : splitSlash a ≠ [] := by
  induction a with
  | nil => simp [splitSlash]
  | cons c cs ih =>
    unfold splitSlash
    split
    · simp
    · split <;> simp

theorem splitSlash_append_slash (a b : List Char) :
    splitSlash (a ++ '/' :: b) = splitSlash a ++ splitSlash b := by
  induction a with
  | nil => simp [splitSlash]
  | cons c cs ih =>
    by_cases hc : c = '/'
    · simp [splitSlash, hc, ih]
    · have h1 := splitSlash_ne_nil cs
      rw [List.cons_append, splitSlash, if_neg hc, ih, splitSlash, if_neg hc]
      cases h : splitSlash cs with
      | nil => exact absurd h h1
      | cons s ss => simp

theorem splitSlash_of_no_slash (a : List Char) (h : '/' ∉ a) : splitSlash a = [a] := by
  induction a with
  | nil => rfl
  | cons c cs ih =>
    have hc : c ≠ '/' := fun e => h (by simp [e])
    have hcs : '/' ∉ cs := fun e => h (by simp [e])
    rw [splitSlash, if_neg hc, ih hcs]

theorem segments_append_slash (a b : List Char) :
    segments (a ++ '/' :: b) = (splitSlash b).foldl pushSegment (segments a) := by
  simp [segments, splitSlash_append_slash, List.foldl_append]

theorem plainName_spec (j : String) (h : plainName j = true) :
    '/' ∉ j.data ∧ '*' ∉ j.data ∧ j.data ≠ [] ∧ j.data ≠ ['.'] ∧ j.data ≠ ['.', '.'] := by
  simp only [plainName, Bool.and_eq_true, List.all_eq_true, Bool.not_eq_true',
    decide_eq_false_iff_not] at h
  obtain ⟨⟨⟨h1, h2⟩, h3⟩, h4⟩ := h
  refine ⟨fun hm => ?_, fun hm => ?_, h2, h3, h4⟩
  · have := h1 _ hm
    revert this; decide
  · have := h1 _ hm
    revert this; decide

theorem segments_dir_name (d : List Char) (j : String) (h : plainName j = true) :
    segments (d ++ '/' :: j.data) = segments d ++ [j.data] := by
  obtain ⟨h1, _, h3, h4, h5⟩ := plainName_spec j h
  rw [segments_append_slash, splitSlash_of_no_slash _ h1]
  simp [pushSegment, h3, h4, h5]

theorem segments_dir_name_glob (d s : List Char) (j : String) (h : plainName j = true) :
    segments (d ++ '/' :: (j.data ++ '/' :: s)) =
      (splitSlash s).foldl pushSegment (segments d ++ [j.data]) := by
  obtain ⟨h1, _, h3, h4, h5⟩ := plainName_spec j h
  rw [segments_append_slash, splitSlash_append_slash, splitSlash_of_no_slash _ h1]
  simp [pushSegment, h3, h4, h5]

/-! ## Facts about matching -/

theorem wild_self (p : List Char) (h : '*' ∉ p) : wild p p = true := by
  induction p with
  | nil => rfl
  | cons c cs ih =>
    have hc : c ≠ '*' := fun e => h (by simp [e])
    have hcs : '*' ∉ cs := fun e => h (by simp [e])
    simp [wild, hc, ih hcs]

theorem segMatch_self (p : List Char) (h : '*' ∉ p) : segMatch p p = true := by
  have hh : p.head? ≠ some '*' := by
    cases p with
    | nil => simp
    | cons c cs =>
      have hc : c ≠ '*' := fun e => h (by simp [e])
      simpa using hc
  simp [segMatch, wild_self p h, hh]

theorem anySuffix_isEmpty (s : List Char) : anySuffix (fun t => t.isEmpty) s = true := by
  induction s with
  | nil => rfl
  | cons c cs ih => simp [anySuffix, ih]

theorem segMatch_star_iff (s : List Char) : segMatch ['*'] s = visible s := by
  have hw : wild ['*'] s = true := by
    have : wild ['*'] s = anySuffix (fun t => t.isEmpty) s := by
      simp only [wild, if_true]
    rw [this, anySuffix_isEmpty]
  simp [segMatch, hw, visible, hidden, Bool.and_comm]

theorem segMatch_star_of_segMatch (p s : List Char) (h : segMatch ('*' :: p) s = true) :
    segMatch ['*'] s = true := by
  rw [segMatch_star_iff]
  simp only [segMatch, Bool.and_eq_true] at h
  obtain ⟨⟨_, h2⟩, h3⟩ := h
  simp [hidden] at h2
  simp at h3
  simp [visible, hidden, h2, h3]

/-- A `**/*.ext` tail matches only where a `**/*` tail matches. -/
theorem starDirs_star_of_ext (p : List Char) (hp : p ≠ ['*']) (rest : List (List Char))
    (h : starDirs (globMatch [('*' :: p)]) rest = true) :
    starDirs (globMatch [['*']]) rest = true := by
  have hp1 : ¬ (('*' :: p) = ['*', '*']) := by simpa using hp
  have h0 : ¬ (['*'] = ['*', '*']) := by decide
  induction rest with
  | nil => simp [starDirs, globMatch, hp1] at h
  | cons s r ih =>
    simp only [starDirs, Bool.or_eq_true, Bool.and_eq_true] at h ⊢
    rcases h with h | ⟨h1, h2⟩
    · left
      simp only [globMatch, if_neg hp1, Bool.and_eq_true] at h
      simp only [globMatch, if_neg h0, Bool.and_eq_true]
      exact ⟨segMatch_star_of_segMatch p s h.1, h.2⟩
    · right
      exact ⟨h1, ih h2⟩

theorem starDirs_star_of_visible (rest : List (List Char)) (hne : rest ≠ [])
    (h : ∀ s ∈ rest, visible s = true) : starDirs (globMatch [['*']]) rest = true := by
  induction rest with
  | nil => exact absurd rfl hne
  | cons s r ih =>
    have hs : visible s = true := h s (by simp)
    have h0 : ¬ (['*'] = ['*', '*']) := by decide
    cases r with
    | nil =>
      simp [starDirs, globMatch, h0, segMatch_star_iff, hs]
    | cons s2 r2 =>
      have hr := ih (by simp) (fun t ht => h t (by simp at ht ⊢; right; exact ht))
      simp only [starDirs, Bool.or_eq_true, Bool.and_eq_true] at hr ⊢
      right
      refine ⟨?_, hr⟩
      simp [visible] at hs
      simp [hs.2]

theorem globMatch_cons_cons (p : List Char) (ps : List (List Char)) (s : List Char)
    (rest : List (List Char)) (hp : p ≠ ['*', '*']) :
    globMatch (p :: ps) (s :: rest) = (segMatch p s && globMatch ps rest) := by
  rw [globMatch, if_neg hp]

theorem globMatch_globstar (ps path : List (List Char)) :
    globMatch (['*', '*'] :: ps) path = starDirs (globMatch ps) path := by
  rw [globMatch.eq_def]
  simp only [if_true]

theorem globMatch_single_cons_cons (p s t : List Char) (rest : List (List Char)) :
    globMatch [p] (s :: t :: rest) = false ∨ p = ['*', '*'] := by
  by_cases hp : p = ['*', '*']
  · exact Or.inr hp
  · left
    rw [globMatch_cons_cons _ _ _ _ hp]
    simp [globMatch]

theorem globMatch_vendor_of_ext (a b e j a0 b0 : List Char) (rest : List (List Char))
    (ha : a ≠ ['*', '*']) (hb : b ≠ ['*', '*']) (he : e ≠ ['*']) (hj : '*' ∉ j)
    (hrest : rest ≠ [])
    (h : globMatch [a, b, ['*', '*'], '*' :: e] (a0 :: b0 :: j :: rest) = true) :
    globMatch [a, b, j, ['*', '*'], ['*']] (a0 :: b0 :: j :: rest) = true := by
  have he1 : ¬ (('*' :: e) = ['*', '*']) := by simpa using he
  have hj1 : j ≠ ['*', '*'] := fun e => hj (by simp [e])
  rw [globMatch_cons_cons _ _ _ _ ha, globMatch_cons_cons _ _ _ _ hb, globMatch_globstar,
    Bool.and_eq_true, Bool.and_eq_true] at h
  obtain ⟨h1, h2, h3⟩ := h
  rw [globMatch_cons_cons _ _ _ _ ha, globMatch_cons_cons _ _ _ _ hb,
    globMatch_cons_cons _ _ _ _ hj1, globMatch_globstar,
    Bool.and_eq_true, Bool.and_eq_true, Bool.and_eq_true]
  refine ⟨h1, h2, segMatch_self j hj, starDirs_star_of_ext e he rest ?_⟩
  cases rest with
  | nil => exact absurd rfl hrest
  | cons t r =>
    rw [starDirs, Bool.or_eq_true, Bool.and_eq_true] at h3
    rcases h3 with h3 | h3
    · rcases globMatch_single_cons_cons ('*' :: e) j t r with h5 | h5
      · rw [h5] at h3
        exact absurd h3 (by decide)
      · exact absurd h5 he1
    · exact h3.2

theorem globMatch_vendor_of_visible (a b j : List Char) (rest : List (List Char))
    (ha : a ≠ ['*', '*']) (hb : b ≠ ['*', '*']) (hj : '*' ∉ j)
    (ha1 : segMatch a a = true) (hb1 : segMatch b b = true)
    (hrest : rest ≠ []) (hv : ∀ s ∈ rest, visible s = true) :
    globMatch [a, b, j, ['*', '*'], ['*']] (a :: b :: j :: rest) = true := by
  have hj1 : j ≠ ['*', '*'] := fun e => hj (by simp [e])
  rw [globMatch_cons_cons _ _ _ _ ha, globMatch_cons_cons _ _ _ _ hb,
    globMatch_cons_cons _ _ _ _ hj1, globMatch_globstar,
    Bool.and_eq_true, Bool.and_eq_true, Bool.and_eq_true]
  exact ⟨ha1, hb1, segMatch_self j hj, starDirs_star_of_visible rest hrest hv⟩

theorem vendor_glob_segments (d : List Char) (j : String) (h : plainName j = true) :
    segments (d ++ '/' :: (j.data ++ '/' :: "**/*".data)) =
      segments d ++ [j.data, ['*', '*'], ['*']] := by
  rw [segments_dir_name_glob d _ j h]
  have : splitSlash "**/*".data = [['*', '*'], ['*']] := by decide
  rw [this]
  simp [pushSegment]

theorem selected_false_of_negated (globs : List String) (path : List (List Char)) (g : String)
    (hg : g ∈ globs) (hn : isNegative g = true) (hm : matchesNegated g path = true) :
    selected globs path = false := by
  have : globs.all (fun g => !isNegative g || !matchesNegated g path) = false := by
    rw [Bool.eq_false_iff]
    intro hall
    rw [List.all_eq_true] at hall
    have := hall g hg
    simp [hn, hm] at this
  simp [selected, this]

theorem below_vendor_js (j : String) (h : plainName j = true) (rest : List (List Char)) :
    below ("./assets/javascripts/" ++ j) rest =
      "assets".data :: "javascripts".data :: j.data :: rest := by
  have e : ("./assets/javascripts/" ++ j).data = "./assets/javascripts".data ++ '/' :: j.data :=
    rfl
  rw [below, e, segments_dir_name _ j h]
  rfl

theorem below_vendor_css (c : String) (h : plainName c = true) (rest : List (List Char)) :
    below ("./assets/stylesheets/" ++ c) rest =
      "assets".data :: "stylesheets".data :: c.data :: rest := by
  have e : ("./assets/stylesheets/" ++ c).data = "./assets/stylesheets".data ++ '/' :: c.data :=
    rfl
  rw [below, e, segments_dir_name _ c h]
  rfl

theorem negated_vendor_js (j : String) (h : plainName j = true) :
    segments (("!./assets/javascripts/" ++ j ++ "/**/*").data.drop 1) =
      ["assets".data, "javascripts".data, j.data, ['*', '*'], ['*']] := by
  have e : ("!./assets/javascripts/" ++ j ++ "/**/*").data.drop 1 =
      "./assets/javascripts".data ++ '/' :: (j.data ++ '/' :: "**/*".data) := rfl
  rw [e, vendor_glob_segments _ j h]
  rfl

theorem negated_vendor_css (c : String) (h : plainName c = true) :
    segments (("!./assets/stylesheets/" ++ c ++ "/**/*").data.drop 1) =
      ["assets".data, "stylesheets".data, c.data, ['*', '*'], ['*']] := by
  have e : ("!./assets/stylesheets/" ++ c ++ "/**/*").data.drop 1 =
      "./assets/stylesheets".data ++ '/' :: (c.data ++ '/' :: "**/*".data) := rfl
  rw [e, vendor_glob_segments _ c h]
  rfl

theorem copied_vendor_js (j : String) (h : plainName j = true) :
    segments ("./assets/javascripts/" ++ j ++ "/**/*").data =
      ["assets".data, "javascripts".data, j.data, ['*', '*'], ['*']] := by
  have e : ("./assets/javascripts/" ++ j ++ "/**/*").data =
      "./assets/javascripts".data ++ '/' :: (j.data ++ '/' :: "**/*".data) := rfl
  rw [e, vendor_glob_segments _ j h]
  rfl

theorem copied_vendor_css (c : String) (h : plainName c = true) :
    segments ("./assets/stylesheets/" ++ c ++ "/**/*").data =
      ["assets".data, "stylesheets".data, c.data, ['*', '*'], ['*']] := by
  have e : ("./assets/stylesheets/" ++ c ++ "/**/*").data =
      "./assets/stylesheets".data ++ '/' :: (c.data ++ '/' :: "**/*".data) := rfl
  rw [e, vendor_glob_segments _ c h]
  rfl

/-- A path below a vendor directory that matches `dir/**/*.ext` is selected by no glob list
that holds the negation of the vendor directory. -/
theorem selected_false_below_vendor (globs : List String) (g pos : String) (a b e : List Char)
    (j : String) (rest : List (List Char)) (hj : plainName j = true) (hrest : rest ≠ [])
    (ha : a ≠ ['*', '*']) (hb : b ≠ ['*', '*']) (he : e ≠ ['*'])
    (hg : g ∈ globs) (hn : isNegative g = true)
    (hgs : segments (g.data.drop 1) = [a, b, j.data, ['*', '*'], ['*']])
    (hpos : ∀ p ∈ globs, isNegative p = false → p = pos)
    (hps : segments pos.data = [a, b, ['*', '*'], '*' :: e]) :
    selected globs (a :: b :: j.data :: rest) = false := by
  obtain ⟨_, hstar, _, _, _⟩ := plainName_spec j hj
  by_cases hm : globMatch [a, b, ['*', '*'], '*' :: e] (a :: b :: j.data :: rest) = true
  · apply selected_false_of_negated globs _ g hg hn
    rw [matchesNegated, hgs]
    exact globMatch_vendor_of_ext a b e j.data a b rest ha hb he hstar hrest hm
  · have : globs.any (fun g => !isNegative g && matchesGlob g (a :: b :: j.data :: rest))
        = false := by
      rw [Bool.eq_false_iff]
      intro hany
      rw [List.any_eq_true] at hany
      obtain ⟨p, hp, hp2⟩ := hany
      rw [Bool.and_eq_true] at hp2
      have hp3 : isNegative p = false := by simpa using hp2.1
      have := hpos p hp hp3
      rw [this, matchesGlob, hps] at hp2
      exact hm hp2.2
    simp [selected, this]

theorem selected_singleton (g : String) (path : List (List Char))
    (hn : isNegative g = false) : selected [g] path = matchesGlob g path := by
  simp [selected, hn]

/-- Claim C2, as amended. For vendor names `j` and `c` that are plain directory names, a
path below `./assets/javascripts/j/` is never selected by `buildJS`, a path below
`./assets/stylesheets/c/` is never selected by `buildCSS`, `buildLess` or `buildSass`, and
such a path is selected by `copyVendorJS` (respectively `copyVendorCSS`) when none of its
components below the vendor directory is empty or begins with a dot. -/
theorem vendor_dirs_excluded_and_copied (j c : String) (hj : plainName j = true)
    (hc : plainName c = true) (rest : List (List Char)) (hrest : rest ≠ []) :
    selected ((ffBuild (some ⟨some ⟨some j, some c⟩⟩)).stream Pipeline.buildJS).src
      (below ("./assets/javascripts/" ++ j) rest) = false ∧
    selected ((ffBuild (some ⟨some ⟨some j, some c⟩⟩)).stream Pipeline.buildCSS).src
      (below ("./assets/stylesheets/" ++ c) rest) = false ∧
    selected ((ffBuild (some ⟨some ⟨some j, some c⟩⟩)).stream Pipeline.buildLess).src
      (below ("./assets/stylesheets/" ++ c) rest) = false ∧
    selected ((ffBuild (some ⟨some ⟨some j, some c⟩⟩)).stream Pipeline.buildSass).src
      (below ("./assets/stylesheets/" ++ c) rest) = false ∧
    ((∀ s ∈ rest, visible s = true) →
      selected ((ffBuild (some ⟨some ⟨some j, some c⟩⟩)).stream Pipeline.copyVendorJS).src
        (below ("./assets/javascripts/" ++ j) rest) = true ∧
      selected ((ffBuild (some ⟨some ⟨some j, some c⟩⟩)).stream Pipeline.copyVendorCSS).src
        (below ("./assets/stylesheets/" ++ c) rest) = true) := by
  rw [below_vendor_js j hj, below_vendor_css c hc]
  have hjs := plainName_spec j hj
  have hcs := plainName_spec c hc
  refine ⟨?_, ?_, ?_, ?_, fun hv => ⟨?_, ?_⟩⟩
  · refine selected_false_below_vendor _ ("!./assets/javascripts/" ++ j ++ "/**/*")
      "./assets/javascripts/**/*.js" _ _ ".js".data j rest hj hrest (by decide) (by decide)
      (by decide) ?_ rfl (negated_vendor_js j hj) ?_ (by decide)
    · simp [Gulp.stream, Pipeline.stream, buildJS, ffBuild, destructure, interpolate]
    · intro p hp hp2
      simp only [Gulp.stream, Pipeline.stream, buildJS, ffBuild, destructure, interpolate,
        List.mem_cons, List.mem_singleton, List.not_mem_nil, or_false] at hp
      rcases hp with rfl | rfl
      · rfl
      · exact absurd hp2 (by simp [isNegative])
  · refine selected_false_below_vendor _ ("!./assets/stylesheets/" ++ c ++ "/**/*")
      "./assets/stylesheets/**/*.css" _ _ ".css".data c rest hc hrest (by decide) (by decide)
      (by decide) ?_ rfl (negated_vendor_css c hc) ?_ (by decide)
    · simp [Gulp.stream, Pipeline.stream, buildCSS, ffBuild, destructure, interpolate]
    · intro p hp hp2
      simp only [Gulp.stream, Pipeline.stream, buildCSS, ffBuild, destructure, interpolate,
        List.mem_cons, List.mem_singleton, List.not_mem_nil, or_false] at hp
      rcases hp with rfl | rfl | rfl | rfl
      · rfl
      · exact absurd hp2 (by decide)
      · exact absurd hp2 (by decide)
      · exact absurd hp2 (by simp [isNegative])
  · refine selected_false_below_vendor _ ("!./assets/stylesheets/" ++ c ++ "/**/*")
      "./assets/stylesheets/**/*.less" _ _ ".less".data c rest hc hrest (by decide) (by decide)
      (by decide) ?_ rfl (negated_vendor_css c hc) ?_ (by decide)
    · simp [Gulp.stream, Pipeline.stream, buildLess, ffBuild, destructure, interpolate]
    · intro p hp hp2
      simp only [Gulp.stream, Pipeline.stream, buildLess, ffBuild, destructure, interpolate,
        List.mem_cons, List.mem_singleton, List.not_mem_nil, or_false] at hp
      rcases hp with rfl | rfl
      · rfl
      · exact absurd hp2 (by simp [isNegative])
  · refine selected_false_below_vendor _ ("!./assets/stylesheets/" ++ c ++ "/**/*")
      "./assets/stylesheets/**/*.scss" _ _ ".scss".data c rest hc hrest (by decide) (by decide)
      (by decide) ?_ rfl (negated_vendor_css c hc) ?_ (by decide)
    · simp [Gulp.stream, Pipeline.stream, buildSass, ffBuild, destructure, interpolate]
    · intro p hp hp2
      simp only [Gulp.stream, Pipeline.stream, buildSass, ffBuild, destructure, interpolate,
        List.mem_cons, List.mem_singleton, List.not_mem_nil, or_false] at hp
      rcases hp with rfl | rfl
      · rfl
      · exact absurd hp2 (by simp [isNegative])
  · have hm := globMatch_vendor_of_visible "assets".data "javascripts".data j.data rest
      (by decide) (by decide) hjs.2.1 (by decide) (by decide) hrest hv
    have hn : isNegative ("./assets/javascripts/" ++ j ++ "/**/*") = false := rfl
    show selected ["./assets/javascripts/" ++ j ++ "/**/*"] _ = true
    rw [selected_singleton _ _ hn, matchesGlob, copied_vendor_js j hj]
    exact hm
  · have hm := globMatch_vendor_of_visible "assets".data "stylesheets".data c.data rest
      (by decide) (by decide) hcs.2.1 (by decide) (by decide) hrest hv
    have hn : isNegative ("./assets/stylesheets/" ++ c ++ "/**/*") = false := rfl
    show selected ["./assets/stylesheets/" ++ c ++ "/**/*"] _ = true
    rw [selected_singleton _ _ hn, matchesGlob, copied_vendor_css c hc]
    exact hm

/-- The statement of C2 at `vendor = { js: 'plugins', css: 'vendor' }` and the path
`./assets/javascripts/plugins/jquery/jquery.js`. -/
theorem vendor_dirs_excluded_and_copied_witness :
    plainName "plugins" = true ∧
    selected ((ffBuild (some ⟨some ⟨some "plugins", some "vendor"⟩⟩)).stream Pipeline.buildJS).src
      (below ("./assets/javascripts/" ++ "plugins") (pathOf "jquery/jquery.js")) = false ∧
    selected
      ((ffBuild (some ⟨some ⟨some "plugins", some "vendor"⟩⟩)).stream Pipeline.copyVendorJS).src
      (below ("./assets/javascripts/" ++ "plugins") (pathOf "jquery/jquery.js")) = true :=
  ⟨by decide,
   (vendor_dirs_excluded_and_copied "plugins" "vendor" (by decide) (by decide)
      (pathOf "jquery/jquery.js") (by decide)).1,
   ((vendor_dirs_excluded_and_copied "plugins" "vendor" (by decide) (by decide)
      (pathOf "jquery/jquery.js") (by decide)).2.2.2.2 (by decide)).1⟩

/-- Claim C2 fails as stated: with `vendor.js = 'plugins'` the file
`./assets/javascripts/plugins/.eslintrc` lies below the vendor directory and is not
selected by `copyVendorJS`. -/
theorem hidden_vendor_file_not_copied :
    plainName "plugins" = true ∧
    below ("./assets/javascripts/" ++ "plugins") (pathOf ".eslintrc") =
      pathOf "./assets/javascripts/plugins/.eslintrc" ∧
    selected
      ((ffBuild (some ⟨some ⟨some "plugins", some "plugins"⟩⟩)).stream Pipeline.copyVendorJS).src
      (below ("./assets/javascripts/" ++ "plugins") (pathOf ".eslintrc")) = false := by
  decide

theorem destination_copyVendorJS (v : Vendor) (hj : plainName (interpolate v.js) = true) :
    (copyVendorJS v).destination =
      ["public".data, "javascripts".data, (interpolate v.js).data] := by
  have e : ("./public/javascripts/" ++ interpolate v.js).data =
      "./public/javascripts".data ++ '/' :: (interpolate v.js).data := rfl
  show segments ("./public/javascripts/" ++ interpolate v.js).data = _
  rw [e, segments_dir_name _ _ hj]
  rfl

theorem destination_copyVendorCSS (v : Vendor) (hc : plainName (interpolate v.css) = true) :
    (copyVendorCSS v).destination =
      ["public".data, "stylesheets".data, (interpolate v.css).data] := by
  have e : ("./public/stylesheets/" ++ interpolate v.css).data =
      "./public/stylesheets".data ++ '/' :: (interpolate v.css).data := rfl
  show segments ("./public/stylesheets/" ++ interpolate v.css).data = _
  rw [e, segments_dir_name _ _ hc]
  rfl

theorem destination_overlap_cases (v : Vendor) (hj : plainName (interpolate v.js) = true)
    (hc : plainName (interpolate v.css) = true) (p q : Pipeline)
    (hp : p ∈ copy ++ build) (hq : q ∈ copy ++ build) (hpq : p ≠ q) :
    (p.stream v).destination <+: (q.stream v).destination ↔
      (p, q) ∈
        [(Pipeline.buildCSS, Pipeline.buildLess), (Pipeline.buildCSS, Pipeline.buildSass),
         (Pipeline.buildLess, Pipeline.buildCSS), (Pipeline.buildLess, Pipeline.buildSass),
         (Pipeline.buildSass, Pipeline.buildCSS), (Pipeline.buildSass, Pipeline.buildLess),
         (Pipeline.buildJS, Pipeline.copyVendorJS),
         (Pipeline.buildCSS, Pipeline.copyVendorCSS),
         (Pipeline.buildLess, Pipeline.copyVendorCSS),
         (Pipeline.buildSass, Pipeline.copyVendorCSS)] := by
  have d1 : (buildJS v).destination = ["public".data, "javascripts".data] := rfl
  have d2 : (buildCSS v).destination = ["public".data, "stylesheets".data] := rfl
  have d3 : (buildLess v).destination = ["public".data, "stylesheets".data] := rfl
  have d4 : (buildSass v).destination = ["public".data, "stylesheets".data] := rfl
  have d5 := destination_copyVendorJS v hj
  have d6 := destination_copyVendorCSS v hc
  have d7 : (copyImages v).destination = ["public".data, "images".data] := rfl
  have d8 : (copyFonts v).destination = ["public".data, "fonts".data] := rfl
  have n1 : "javascripts".data ≠ "stylesheets".data := by decide
  have n2 : "javascripts".data ≠ "images".data := by decide
  have n3 : "javascripts".data ≠ "fonts".data := by decide
  have n4 : "stylesheets".data ≠ "images".data := by decide
  have n5 : "stylesheets".data ≠ "fonts".data := by decide
  have n6 : "images".data ≠ "fonts".data := by decide
  cases p <;> cases q <;>
    first
    | exact absurd rfl hpq
    | exact absurd hp (by decide)
    | exact absurd hq (by decide)
    | (simp only [Pipeline.stream, d1, d2, d3, d4, d5, d6, d7, d8]
       simp [n1, n2, n3, n4, n5, n6, n1.symm, n2.symm, n3.symm,
         n4.symm, n5.symm, n6.symm])

/-- Claim C9, as amended. For a configuration whose vendor directory names (the text
"undefined" for an omitted one) are plain, the destination of one of the eight build and
copy pipelines equals or is a leading part of the destination of another exactly in
these cases: `buildCSS`, `buildLess` and `buildSass` share one destination, the
destination of `copyVendorCSS` lies inside it, and the destination of `copyVendorJS`
lies inside that of `buildJS`. All other pairs write to disjoint directories. -/
theorem destinations_overlap_iff (arg : Option Options)
    (hj : plainName (interpolate (ffBuild arg).vendor.js) = true)
    (hc : plainName (interpolate (ffBuild arg).vendor.css) = true) (p q : Pipeline)
    (hp : p ∈ copy ++ build) (hq : q ∈ copy ++ build) (hpq : p ≠ q) :
    ((ffBuild arg).stream p).destination <+: ((ffBuild arg).stream q).destination ↔
      (p, q) ∈
        [(Pipeline.buildCSS, Pipeline.buildLess), (Pipeline.buildCSS, Pipeline.buildSass),
         (Pipeline.buildLess, Pipeline.buildCSS), (Pipeline.buildLess, Pipeline.buildSass),
         (Pipeline.buildSass, Pipeline.buildCSS), (Pipeline.buildSass, Pipeline.buildLess),
         (Pipeline.buildJS, Pipeline.copyVendorJS),
         (Pipeline.buildCSS, Pipeline.copyVendorCSS),
         (Pipeline.buildLess, Pipeline.copyVendorCSS),
         (Pipeline.buildSass, Pipeline.copyVendorCSS)] :=
  destination_overlap_cases (ffBuild arg).vendor hj hc p q hp hq hpq

/-- The statement of C9 for a call without argument and the pair `copyImages`,
`copyFonts`: neither destination is a leading part of the other. -/
theorem destinations_overlap_iff_witness :
    plainName (interpolate (ffBuild none).vendor.js) = true ∧
    ¬ (((ffBuild none).stream Pipeline.copyImages).destination <+:
        ((ffBuild none).stream Pipeline.copyFonts).destination) :=
  ⟨by decide, fun h =>
    absurd ((destinations_overlap_iff none (by decide) (by decide) Pipeline.copyImages
      Pipeline.copyFonts (by decide) (by decide) (by decide)).1 h) (by decide)⟩

/-- Claim C9 fails as stated: `buildCSS` and `buildLess` are distinct pipelines of
`build()` with the same destination, and the destination of `buildJS` is a leading part
of that of `copyVendorJS`. With a vendor name that is not a plain directory name, here
`'../fonts'`, even pipelines of different asset kinds share a destination. -/
theorem stylesheet_builders_share_destination :
    Pipeline.buildCSS ≠ Pipeline.buildLess ∧
    Pipeline.buildCSS ∈ copy ++ build ∧ Pipeline.buildLess ∈ copy ++ build ∧
    ((ffBuild (some ⟨some ⟨some "plugins", some "plugins"⟩⟩)).stream
        Pipeline.buildCSS).destination =
      ((ffBuild (some ⟨some ⟨some "plugins", some "plugins"⟩⟩)).stream
        Pipeline.buildLess).destination ∧
    ((ffBuild (some ⟨some ⟨some "plugins", some "plugins"⟩⟩)).stream
        Pipeline.buildJS).destination <+:
      ((ffBuild (some ⟨some ⟨some "plugins", some "plugins"⟩⟩)).stream
        Pipeline.copyVendorJS).destination ∧
    ((ffBuild (some ⟨some ⟨some "../fonts", some "plugins"⟩⟩)).stream
        Pipeline.copyVendorJS).destination =
      ((ffBuild (some ⟨some ⟨some "../fonts", some "plugins"⟩⟩)).stream
        Pipeline.copyFonts).destination := by
  decide

/-! ## Facts about runs -/

theorem split_before {α : Type} (a b c d : List α) (x : α)
    (h : a ++ b = c ++ x :: d) (hx : x ∉ a) : a <+: c := by
  rcases List.append_eq_append_iff.1 h with ⟨a1, h1, _⟩ | ⟨c1, h1, h2⟩
  · exact ⟨a1, h1.symm⟩
  · cases c1 with
    | nil =>
      rw [List.append_nil] at h1
      rw [h1]
    | cons y c2 =>
      rw [List.cons_append] at h2
      have hxy : x = y := (List.cons.inj h2).1
      exact absurd (by rw [h1, hxy]; simp) hx

theorem buildInv_exec : BuildInv (exec buildTask.body) := by
  left
  decide

theorem deliverEnd_disabled (s : State) (p : Pipeline)
    (h : ¬ (s.trace.contains (Event.start p) && !s.trace.contains (Event.ended p)) = true) :
    deliverEnd s p = s := by
  rw [deliverEnd, if_neg h]

theorem deliverEnd_no_listener (s : State) (p : Pipeline)
    (h : (s.trace.contains (Event.start p) && !s.trace.contains (Event.ended p)) = true)
    (hl : s.listeners = []) :
    deliverEnd s p = ⟨s.trace ++ [Event.ended p], []⟩ := by
  rw [deliverEnd, if_pos h]
  simp [hl]

theorem deliverEnd_due (s : State) (p : Pipeline) (l : Listener)
    (h : (s.trace.contains (Event.start p) && !s.trace.contains (Event.ended p)) = true)
    (hl : s.listeners = [l]) (hd : allEnded (s.trace ++ [Event.ended p]) l.members = true) :
    deliverEnd s p = ⟨s.trace ++ [Event.ended p] ++ l.actions.map Action.event, []⟩ := by
  rw [deliverEnd, if_pos h]
  simp [hl, hd]

theorem deliverEnd_waiting (s : State) (p : Pipeline) (l : Listener)
    (h : (s.trace.contains (Event.start p) && !s.trace.contains (Event.ended p)) = true)
    (hl : s.listeners = [l]) (hd : allEnded (s.trace ++ [Event.ended p]) l.members = false) :
    deliverEnd s p = ⟨s.trace ++ [Event.ended p], [l]⟩ := by
  rw [deliverEnd, if_pos h]
  simp [hl, hd]

theorem buildInv_deliverEnd (s : State) (p : Pipeline) (h : BuildInv s) :
    BuildInv (deliverEnd s p) := by
  by_cases he : (s.trace.contains (Event.start p) && !s.trace.contains (Event.ended p)) = true
  · rcases h with ⟨hl, hm, _⟩ | ⟨hl, pre, post, ht, hpre, hm, hall⟩
    · have hm1 : ∀ m ∈ minify, Event.start m ∉ s.trace ++ [Event.ended p] := by
        intro m hmm hmem
        rw [List.mem_append] at hmem
        rcases hmem with hmem | hmem
        · exact hm m hmm hmem
        · simp at hmem
      by_cases hd : allEnded (s.trace ++ [Event.ended p]) buildListener.members = true
      · rw [deliverEnd_due s p _ he hl hd]
        right
        refine ⟨rfl, s.trace ++ [Event.ended p], buildListener.actions.map Action.event,
          rfl, hd, hm1, ?_⟩
        intro m hmm
        apply List.mem_append_right
        revert m
        decide
      · have hd1 : allEnded (s.trace ++ [Event.ended p]) buildListener.members = false := by
          simpa using hd
        rw [deliverEnd_waiting s p _ he hl hd1]
        left
        exact ⟨rfl, hm1, hd1⟩
    · rw [deliverEnd_no_listener s p he hl]
      right
      refine ⟨rfl, pre, post ++ [Event.ended p], ?_, hpre, hm, ?_⟩
      · simp [ht]
      · intro m hmm
        exact List.mem_append_left _ (hall m hmm)
  · rw [deliverEnd_disabled s p he]
    exact h

theorem buildInv_run (ends : List Pipeline) : BuildInv (run buildTask.body ends) := by
  unfold run
  have h0 : BuildInv (exec buildTask.body) := buildInv_exec
  suffices h : ∀ s, BuildInv s → BuildInv (ends.foldl deliverEnd s) from h _ h0
  induction ends with
  | nil => intro s hs; exact hs
  | cons p ps ih => intro s hs; exact ih _ (buildInv_deliverEnd s p hs)

theorem mem_trace_deliverEnd (s : State) (p : Pipeline) (e : Event) (h : e ∈ s.trace) :
    e ∈ (deliverEnd s p).trace := by
  unfold deliverEnd
  split
  · simp only [List.append_assoc]
    exact List.mem_append_left _ h
  · exact h

theorem mem_trace_foldl_deliverEnd (ends : List Pipeline) (s : State) (e : Event)
    (h : e ∈ s.trace) : e ∈ (ends.foldl deliverEnd s).trace := by
  induction ends generalizing s with
  | nil => exact h
  | cons p ps ih => exact ih _ (mem_trace_deliverEnd s p e h)

theorem ended_mem_deliverEnd (s : State) (p : Pipeline) (h : Event.start p ∈ s.trace) :
    Event.ended p ∈ (deliverEnd s p).trace := by
  by_cases hend : Event.ended p ∈ s.trace
  · exact mem_trace_deliverEnd s p _ hend
  · have he : (s.trace.contains (Event.start p) && !s.trace.contains (Event.ended p)) = true := by
      simp [h, hend]
    rw [deliverEnd, if_pos he]
    simp

theorem ended_mem_foldl_deliverEnd (ends : List Pipeline) (s : State) (p : Pipeline)
    (hp : p ∈ ends) (h : Event.start p ∈ s.trace) :
    Event.ended p ∈ (ends.foldl deliverEnd s).trace := by
  induction ends generalizing s with
  | nil => simp at hp
  | cons q qs ih =>
    rw [List.foldl_cons]
    rcases List.mem_cons.1 hp with rfl | hq
    · exact mem_trace_foldl_deliverEnd qs _ _ (ended_mem_deliverEnd s p h)
    · exact ih _ hq (mem_trace_deliverEnd s q _ h)

/-- Claim C6. In every run of the body of the `build` task followed by pipeline ends in
any order: a start of `minifyImages`, `minifyJS` or `minifyCSS` comes after the ends of
all four copy pipelines and all four build pipelines; once those eight ends are in the
trace the three minify pipelines have started; and the eight ends are in the trace as
soon as each of the eight pipelines is given its end. -/
theorem minify_only_after_build_and_copy (arg : Option Options) (ends : List Pipeline) :
    (ffBuild arg).task "build" = some buildTask ∧
    (∀ pre post m, m ∈ minify →
      (run buildTask.body ends).trace = pre ++ Event.start m :: post →
      ∀ p ∈ copy ++ build, Event.ended p ∈ pre) ∧
    ((∀ p ∈ copy ++ build, Event.ended p ∈ (run buildTask.body ends).trace) →
      ∀ m ∈ minify, Event.start m ∈ (run buildTask.body ends).trace) ∧
    ((∀ p ∈ copy ++ build, p ∈ ends) →
      ∀ p ∈ copy ++ build, Event.ended p ∈ (run buildTask.body ends).trace) := by
  have hinv := buildInv_run ends
  refine ⟨rfl, ?_, ?_, ?_⟩
  · intro pre post m hm hsplit p hp
    rcases hinv with ⟨_, hno, _⟩ | ⟨_, pre0, post0, ht, hpre, hno, _⟩
    · exact absurd (by rw [hsplit]; simp) (hno m hm)
    · rw [ht] at hsplit
      obtain ⟨r, hr⟩ := split_before pre0 post0 pre post _ hsplit (hno m hm)
      rw [← hr]
      apply List.mem_append_left
      have := (List.all_eq_true.1 hpre) p hp
      simpa using this
  · intro hall m hm
    rcases hinv with ⟨_, _, hnot⟩ | ⟨_, _, _, _, _, _, hstarted⟩
    · have : allEnded (run buildTask.body ends).trace buildListener.members = true := by
        rw [allEnded, List.all_eq_true]
        intro q hq
        simpa using hall q hq
      rw [this] at hnot
      exact absurd hnot (by decide)
    · exact hstarted m hm
  · intro hall p hp
    refine ended_mem_foldl_deliverEnd ends _ p (hall p hp) ?_
    revert p
    decide

/-- The statement of C6 on the run in which the build pipelines end first and the copy
pipelines after them: the three minify pipelines start, and the end of `copyFonts` comes
before the start of `minifyImages`. -/
theorem minify_only_after_build_and_copy_witness :
    (∀ p ∈ copy ++ build, p ∈ build ++ copy) ∧
    (∀ m ∈ minify, Event.start m ∈ (run buildTask.body (build ++ copy)).trace) ∧
    (run buildTask.body (build ++ copy)).trace =
      (run buildTask.body (build ++ copy)).trace.take 17 ++
        Event.start Pipeline.minifyImages ::
          (run buildTask.body (build ++ copy)).trace.drop 18 ∧
    Event.ended Pipeline.copyFonts ∈ (run buildTask.body (build ++ copy)).trace.take 17 :=
  ⟨by decide,
   (minify_only_after_build_and_copy none (build ++ copy)).2.2.1
     ((minify_only_after_build_and_copy none (build ++ copy)).2.2.2 (by decide)),
   by decide,
   (minify_only_after_build_and_copy none (build ++ copy)).2.1
     ((run buildTask.body (build ++ copy)).trace.take 17)
     ((run buildTask.body (build ++ copy)).trace.drop 18)
     Pipeline.minifyImages (by decide) (by decide) Pipeline.copyFonts (by decide)⟩

/-- A run with no listener and no minify start stays so when a pipeline ends. -/
theorem quiet_deliverEnd (s : State) (p : Pipeline)
    (h : s.listeners = [] ∧ ∀ m ∈ minify, Event.start m ∉ s.trace) :
    (deliverEnd s p).listeners = [] ∧ ∀ m ∈ minify, Event.start m ∉ (deliverEnd s p).trace := by
  by_cases he : (s.trace.contains (Event.start p) && !s.trace.contains (Event.ended p)) = true
  · rw [deliverEnd_no_listener s p he h.1]
    refine ⟨rfl, fun m hm hmem => ?_⟩
    rw [List.mem_append] at hmem
    rcases hmem with hmem | hmem
    · exact h.2 m hm hmem
    · simp at hmem
  · rw [deliverEnd_disabled s p he]
    exact h

/-- A run with no listener and no minify start stays so under any sequence of ends. -/
theorem quiet_foldl_deliverEnd (ends : List Pipeline) (s : State)
    (h : s.listeners = [] ∧ ∀ m ∈ minify, Event.start m ∉ s.trace) :
    (ends.foldl deliverEnd s).listeners = [] ∧
      ∀ m ∈ minify, Event.start m ∉ (ends.foldl deliverEnd s).trace := by
  induction ends generalizing s with
  | nil => exact h
  | cons p ps ih => exact ih _ (quiet_deliverEnd s p h)

/-! ## Configuration, tasks and cache keys -/

/-- Claim C1 at its failing input. After `ffBuild()` the object `Object.assign` computes
has `js` and `css` equal to "plugins", but the globs are built from the `vendor` binding,
whose properties are `undefined`: they name the directory `undefined`, so a file below
`./assets/javascripts/plugins/` is transpiled by `buildJS` and not copied by
`copyVendorJS`. The same holds of a vendor object that omits `js`. -/
theorem ffBuild_no_argument_uses_undefined :
    objectAssign defaults (ffBuild none).vendor = ⟨some "plugins", some "plugins"⟩ ∧
    ((ffBuild none).stream Pipeline.buildJS).src =
      ["./assets/javascripts/**/*.js", "!./assets/javascripts/undefined/**/*"] ∧
    ((ffBuild none).stream Pipeline.copyVendorJS).src =
      ["./assets/javascripts/undefined/**/*"] ∧
    ((ffBuild none).stream Pipeline.copyVendorJS).dests = ["./public/javascripts/undefined"] ∧
    ((ffBuild none).stream Pipeline.copyVendorCSS).src =
      ["./assets/stylesheets/undefined/**/*"] ∧
    ((ffBuild (some ⟨some ⟨none, some "lib"⟩⟩)).stream Pipeline.buildJS).src =
      ["./assets/javascripts/**/*.js", "!./assets/javascripts/undefined/**/*"] ∧
    selected ((ffBuild none).stream Pipeline.buildJS).src
      (pathOf "./assets/javascripts/plugins/lib.js") = true ∧
    selected ((ffBuild none).stream Pipeline.copyVendorJS).src
      (pathOf "./assets/javascripts/plugins/lib.js") = false := by
  decide

/-- Claim C3 at its failing input. With `vendor.js = 'vendor'` the vendor files are copied
to `./public/javascripts/vendor`, and `minifyJS`, whose negated glob names `plugins`,
selects `./public/javascripts/vendor/lib.js`. -/
theorem minifyJS_selects_configured_vendor_dir :
    ((ffBuild (some ⟨some ⟨some "vendor", some "plugins"⟩⟩)).stream Pipeline.copyVendorJS).dests
      = ["./public/javascripts/vendor"] ∧
    ((ffBuild (some ⟨some ⟨some "vendor", some "plugins"⟩⟩)).stream Pipeline.minifyJS).src
      = ["public/javascripts/**/*.js", "!./public/javascripts/plugins/**/*"] ∧
    selected ((ffBuild (some ⟨some ⟨some "vendor", some "plugins"⟩⟩)).stream Pipeline.minifyJS).src
      (below "./public/javascripts/vendor" (pathOf "lib.js")) = true := by
  decide

/-- Claim C4 at its failing input. With `vendor.css = 'plugins'` the vendor files are
copied to `./public/stylesheets/plugins`, and `minifyCSS`, which has no negated glob,
selects `./public/stylesheets/plugins/lib.css`. -/
theorem minifyCSS_selects_vendor_dir :
    ((ffBuild (some ⟨some ⟨some "plugins", some "plugins"⟩⟩)).stream Pipeline.copyVendorCSS).dests
      = ["./public/stylesheets/plugins"] ∧
    ((ffBuild (some ⟨some ⟨some "plugins", some "plugins"⟩⟩)).stream Pipeline.minifyCSS).src
      = ["./public/stylesheets/**/*.css"] ∧
    selected ((ffBuild (some ⟨some ⟨some "plugins", some "plugins"⟩⟩)).stream Pipeline.minifyCSS).src
      (below "./public/stylesheets/plugins" (pathOf "lib.css")) = true := by
  decide

/-- Claim C5. Whatever its argument, `ffBuild` registers exactly the tasks `clean`,
`build` and `default`, in this order: `clean` without prerequisites, `build` and
`default` each with the prerequisites `['clean']`. -/
theorem ffBuild_registers_three_tasks (arg : Option Options) :
    (ffBuild arg).tasks.map (fun t => (t.name, t.deps)) =
      [("clean", []), ("build", ["clean"]), ("default", ["clean"])] := by
  rfl

/-- Claim C7. The `default` task registers three watchers: the one on the JS glob runs
exactly `buildJS`, the one on the three stylesheet globs runs exactly `buildCSS`,
`buildLess` and `buildSass`, the one on the image glob runs exactly `copyImages`; no
watch handler starts a minify pipeline, no statement of the task body starts one, and
in every run of the task body, whatever the order in which pipelines end, no minify
pipeline is ever started (the body registers no listener that could start one). -/
theorem default_task_watchers (arg : Option Options) :
    (ffBuild arg).task "default" = some defaultTask ∧
    defaultTask.body.filterMap Effect.watcher =
      [(["./assets/javascripts/**/*.js"], [Pipeline.buildJS]),
        (["./assets/stylesheets/**/*.less", "./assets/stylesheets/**/*.css",
          "./assets/stylesheets/**/*.scss"],
          [Pipeline.buildCSS, Pipeline.buildLess, Pipeline.buildSass]),
        (["./assets/images/**"], [Pipeline.copyImages])] ∧
    (∀ m ∈ minify,
      (∀ w ∈ defaultTask.body.filterMap Effect.watcher, m ∉ w.2) ∧
      m ∉ defaultTask.body.filterMap Effect.started) ∧
    ∀ ends : List Pipeline,
      (run defaultTask.body ends).listeners = [] ∧
      ∀ m ∈ minify, Event.start m ∉ (run defaultTask.body ends).trace :=
  ⟨rfl, by decide, by decide,
   fun ends => quiet_foldl_deliverEnd ends (exec defaultTask.body) (by decide)⟩

/-- The statement of C7 for `minifyJS`: the body of the `default` task does not start it,
and it is not started in the run in which all copy and build pipelines end. -/
theorem default_task_watchers_witness :
    Pipeline.minifyJS ∈ minify ∧
    Pipeline.minifyJS ∉ defaultTask.body.filterMap Effect.started ∧
    Event.start Pipeline.minifyJS ∉ (run defaultTask.body (copy ++ build)).trace :=
  ⟨by decide, ((default_task_watchers none).2.2.1 Pipeline.minifyJS (by decide)).2,
   ((default_task_watchers none).2.2.2 (copy ++ build)).2 Pipeline.minifyJS (by decide)⟩

/-- Claim C8 fails as stated: in the body of the `default` task it is not the case that
every `gulp.watch` registration comes after the starts of the copy and build pipelines
(the first statement of the body is a registration). -/
theorem default_task_watches_not_after_build :
    ¬ ∀ i : Fin defaultTask.body.length, (defaultTask.body.get i).isWatch = true →
        ∀ p ∈ copy ++ build, ∃ j : Fin defaultTask.body.length,
          j < i ∧ (defaultTask.body.get j).started = some p := by
  decide

/-- Claim C8, as amended. The `default` task has `clean` as its prerequisite, and its body
registers the three watches first and starts the copy and build pipelines afterwards:
every `gulp.watch` registration comes before every pipeline start. -/
theorem default_task_watches_before_build (arg : Option Options) :
    (ffBuild arg).task "default" = some defaultTask ∧
    defaultTask.deps = ["clean"] ∧
    (defaultTask.body.filter Effect.isWatch).length = 3 ∧
    defaultTask.body.filterMap Effect.started = copy ++ build ∧
    ∀ i j : Fin defaultTask.body.length,
      (defaultTask.body.get i).isWatch = true →
      ((defaultTask.body.get j).started).isSome = true → i < j :=
  ⟨rfl, rfl, by decide, by decide, by decide⟩

/-- The statement of C8 for the third watch registration and the first pipeline start. -/
theorem default_task_watches_before_build_witness :
    (defaultTask.body.get ⟨2, by decide⟩).isWatch = true ∧
    ((defaultTask.body.get ⟨3, by decide⟩).started).isSome = true ∧
    (⟨2, by decide⟩ : Fin defaultTask.body.length) < ⟨3, by decide⟩ :=
  ⟨by decide, by decide,
    (default_task_watches_before_build none).2.2.2.2 ⟨2, by decide⟩ ⟨3, by decide⟩
      (by decide) (by decide)⟩

/-- The cache and remember keys of a pipeline do not depend on the vendor object. -/
theorem stream_keys_independent (v : Vendor) (p : Pipeline) :
    (p.stream v).cacheKeys = (p.stream emptyVendor).cacheKeys ∧
    (p.stream v).rememberKeys = (p.stream emptyVendor).rememberKeys := by
  cases p <;> exact ⟨rfl, rfl⟩

/-- Claim C10. The values of `CACHE_KEYS` are pairwise distinct, and each of `buildJS`,
`buildCSS`, `buildLess` and `buildSass` passes one key of `CACHE_KEYS` to its only
`cache` stage and the same key to its only `remember` stage, a key that no other
pipeline passes to a `cache` or `remember` stage. -/
theorem cache_keys_private (arg : Option Options) :
    cacheKeyValues.Nodup ∧
    ∀ p ∈ build, ∃ k ∈ cacheKeyValues,
      ((ffBuild arg).stream p).cacheKeys = [k] ∧ ((ffBuild arg).stream p).rememberKeys = [k] ∧
      ∀ q : Pipeline, q ≠ p →
        k ∉ ((ffBuild arg).stream q).cacheKeys ∧ k ∉ ((ffBuild arg).stream q).rememberKeys := by
  have h : cacheKeyValues.Nodup ∧
      ∀ p ∈ build, ∃ k ∈ cacheKeyValues,
        (p.stream emptyVendor).cacheKeys = [k] ∧ (p.stream emptyVendor).rememberKeys = [k] ∧
        ∀ q : Pipeline, q ≠ p →
          k ∉ (q.stream emptyVendor).cacheKeys ∧ k ∉ (q.stream emptyVendor).rememberKeys := by
    decide
  refine ⟨h.1, fun p hp => ?_⟩
  obtain ⟨k, hk, h1, h2, h3⟩ := h.2 p hp
  refine ⟨k, hk, ?_, ?_, fun q hq => ?_⟩
  · rw [Gulp.stream, (stream_keys_independent _ p).1, h1]
  · rw [Gulp.stream, (stream_keys_independent _ p).2, h2]
  · rw [Gulp.stream, (stream_keys_independent _ q).1, (stream_keys_independent _ q).2]
    exact h3 q hq

/-- The statement of C10 for `buildSass` after `ffBuild()`. -/
theorem cache_keys_private_witness :
    Pipeline.buildSass ∈ build ∧
    ∃ k ∈ cacheKeyValues,
      ((ffBuild none).stream Pipeline.buildSass).cacheKeys = [k] ∧
      ((ffBuild none).stream Pipeline.buildSass).rememberKeys = [k] ∧
      ∀ q : Pipeline, q ≠ Pipeline.buildSass →
        k ∉ ((ffBuild none).stream q).cacheKeys ∧ k ∉ ((ffBuild none).stream q).rememberKeys :=
  ⟨by decide, (cache_keys_private none).2 Pipeline.buildSass (by decide)⟩

end FFBuild
